import Mathlib

/-!
Shallow embedding of the pongvaders simulation core, translated from the
TypeScript sources:

* `src/src/AlienManager.ts` — alien formation, swarm movement, speed-up,
  bottom-reached latch, ball-vs-alien collisions, difficulty scaling;
* `src/unnamed/part_008` (`Alien.ts`) — alien point values, `moveDown`,
  `hasReachedBottom`;
* `src/src/playState.ts` / `src/unnamed/part_006` (`fakePhysics.ts`) —
  integration + world-bounds pass of the physics update, `ballLost` state
  machine;
* `src/src/Ball.ts` — `reset`, `enforceMaxSpeed`.

Numeric state is modelled over `ℚ` (the JS sources use IEEE doubles on
constants whose interactions here are exact); `Ball.enforceMaxSpeed` needs a
square root and is modelled over `ℝ`.  The cosmetic hover animation of
aliens (driven by the wall clock) is not part of the model: the swarm logic
reads and writes the alien `x` and the descent-tracking `initialY`, which
are the `x`/`y` fields here.
-/

/-- 3D vector record, standing in for `THREE.Vector3` fields used by the
simulation (`x`, `y`, `z`). -/
structure Vec3 (α : Type) where
  x : α
  y : α
  z : α
deriving DecidableEq, Repr

/-- Swarm direction, from `type SwarmDirection = 'left' | 'right'`. -/
inductive SwarmDirection where
  | left
  | right
deriving DecidableEq, Repr

/-- Alien kind, from `'small' | 'medium' | 'large'`. -/
inductive AlienType where
  | small
  | medium
  | large
deriving DecidableEq, Repr

/-- Point values set in the `Alien` constructor switch (part_008):
small = 30, large = 10, medium/default = 20. -/
def alienPoints : AlienType → ℕ
  | .small => 30
  | .medium => 20
  | .large => 10

/-- Alien width from the size switch in `createAlienFormation`:
small 1.0, medium 1.3, large 1.5. -/
def alienWidth : AlienType → ℚ
  | .small => 1
  | .medium => 13 / 10
  | .large => 3 / 2

/-- Row-to-type rule in `createAlienFormation`: row 0 small, rows `< 3`
medium, the rest large. -/
def alienTypeForRow (row : ℕ) : AlienType :=
  if row = 0 then .small else if row < 3 then .medium else .large

/-- The state of one alien that the swarm logic reads and writes:
`x` is the body x, `y` is `initialY` (descent tracking), `halfWidth` is
`size.width / 2`, plus the point value and the `isDestroyed` flag. -/
structure Alien where
  x : ℚ
  y : ℚ
  halfWidth : ℚ
  type : AlienType
  points : ℕ
  isDestroyed : Bool
deriving DecidableEq, Repr

/-- `Alien.moveDown(amount)`: `initialY -= amount`. -/
def Alien.moveDown (amount : ℚ) (a : Alien) : Alien :=
  { a with y := a.y - amount }

/-- `Alien.hasReachedBottom(bottomY)`: `initialY <= bottomY`. -/
def Alien.bottomReached (bottomY : ℚ) (a : Alien) : Bool :=
  a.y ≤ bottomY

/-- `AlienManager.createAlienFormation`: rows×columns grid, centered with
`horizontalSpacing = 2`, `startY = 15`, `verticalSpacing = 1.5`, type by
row index, size and points by type. -/
def createAlienFormation (rows columns : ℕ) : List Alien :=
  let startX : ℚ := -(((columns : ℚ) - 1) * 2) / 2
  (List.range rows).flatMap (fun row =>
    (List.range columns).map (fun col =>
      let t := alienTypeForRow row
      { x := startX + (col : ℚ) * 2
        y := 15 - (row : ℚ) * (3 / 2)
        halfWidth := alienWidth t / 2
        type := t
        points := alienPoints t
        isDestroyed := false }))

/-- The `AlienManager` fields the claims are about. -/
structure AlienManager where
  aliens : List Alien
  currentDirection : SwarmDirection
  moveTimer : ℚ
  moveInterval : ℚ
  horizontalSpeed : ℚ
  moveDownAmount : ℚ
  speedIncreasePerAlien : ℚ
  worldMin : ℚ
  worldMax : ℚ
  bottomBoundary : ℚ
  hasReachedBottom : Bool
  rows : ℕ
  columns : ℕ
deriving DecidableEq, Repr

/-- The edge-alien scan of `moveSwarm`: fold over the alien list, skipping
destroyed aliens, keeping the strictly-larger (direction right) or
strictly-smaller (direction left) `x`.  The running `maxX = -Infinity`
(resp. `minX = Infinity`) of the source is modelled by the `Option`
accumulator: the first alive alien always replaces `none`. -/
def findEdgeAlien (dir : SwarmDirection) (aliens : List Alien) : Option Alien :=
  aliens.foldl
    (fun acc a =>
      if a.isDestroyed then acc
      else
        match acc with
        | none => some a
        | some e =>
          match dir with
          | .right => if a.x > e.x then some a else acc
          | .left => if a.x < e.x then some a else acc)
    none

/-- `AlienManager.moveSwarm`: compute `movementDistance`, find the edge
alien, flip the direction (and mark the descent) when moving the edge alien
would cross the world bound, then move every alive alien horizontally in
the (possibly flipped) current direction and, on a flip step, also down by
`moveDownAmount`. -/
def AlienManager.moveSwarm (m : AlienManager) : AlienManager :=
  let movementDistance := m.horizontalSpeed * m.moveInterval
  let edge := findEdgeAlien m.currentDirection m.aliens
  let flip : SwarmDirection × Bool :=
    match edge with
    | none => (m.currentDirection, false)
    | some e =>
      match m.currentDirection with
      | .right =>
        if e.x + e.halfWidth + movementDistance > m.worldMax then (.left, true)
        else (.right, false)
      | .left =>
        if e.x - e.halfWidth - movementDistance < m.worldMin then (.right, true)
        else (.left, false)
  let newDir := flip.1
  let shouldMoveDown := flip.2
  let aliens' := m.aliens.map (fun a =>
    if a.isDestroyed then a
    else
      let movement : ℚ := match newDir with
        | .right => movementDistance
        | .left => -movementDistance
      let a' := { a with x := a.x + movement }
      if shouldMoveDown then a'.moveDown m.moveDownAmount else a')
  { m with currentDirection := newDir, aliens := aliens' }

/-- `AlienManager.increaseSpeed`: recompute `moveInterval` from the number
of destroyed aliens, floored at `0.2`. -/
def AlienManager.increaseSpeed (m : AlienManager) : AlienManager :=
  let aliveCount := (m.aliens.filter (fun a => !a.isDestroyed)).length
  let totalCount := m.rows * m.columns
  let destroyedCount : ℤ := (totalCount : ℤ) - (aliveCount : ℤ)
  let speedIncrease := (destroyedCount : ℚ) * m.speedIncreasePerAlien
  { m with moveInterval := max (1 - speedIncrease) (1 / 5) }

/-- The `moveInterval` formula of `increaseSpeed`, factored over the
destroyed count: `max(1.0 - destroyedCount * speedIncreasePerAlien, 0.2)`. -/
def moveIntervalFor (speedIncreasePerAlien : ℚ) (destroyedCount : ℤ) : ℚ :=
  max (1 - (destroyedCount : ℚ) * speedIncreasePerAlien) (1 / 5)

/-- Destroyed count as computed inside `increaseSpeed`:
`rows*columns - aliveCount`. -/
def AlienManager.destroyedCount (m : AlienManager) : ℤ :=
  ((m.rows * m.columns : ℕ) : ℤ) - ((m.aliens.filter (fun a => !a.isDestroyed)).length : ℤ)

/-- `speedIncreasePerAlien` as set by `setDifficulty(level)`:
`0.025 + (level - 1) * 0.005`. -/
def speedIncreaseAt (level : ℕ) : ℚ :=
  1 / 40 + ((level : ℚ) - 1) * (1 / 200)

/-- `AlienManager.setDifficulty(level)`: sets exactly `horizontalSpeed`,
`moveDownAmount` and `speedIncreasePerAlien` from the level. -/
def AlienManager.setDifficulty (level : ℕ) (m : AlienManager) : AlienManager :=
  { m with
    horizontalSpeed := 3 / 2 + ((level : ℚ) - 1) * (3 / 10)
    moveDownAmount := 1 / 2 + ((level : ℚ) - 1) * (1 / 10)
    speedIncreasePerAlien := 1 / 40 + ((level : ℚ) - 1) * (1 / 200) }

/-- `AlienManager.checkBottomReached`: if the latch is set, return at once;
otherwise, when some alive alien has reached the bottom boundary, set the
latch and fire the callback (the returned `Bool`). -/
def AlienManager.checkBottomReached (m : AlienManager) : AlienManager × Bool :=
  if m.hasReachedBottom then (m, false)
  else if m.aliens.any (fun a => !a.isDestroyed && a.bottomReached m.bottomBoundary) then
    ({ m with hasReachedBottom := true }, true)
  else (m, false)

/-- Number of callback firings over `n` consecutive `checkBottomReached`
calls. -/
def AlienManager.bottomFires (m : AlienManager) : ℕ → ℕ
  | 0 => 0
  | n + 1 =>
    let r := m.checkBottomReached
    (if r.2 then 1 else 0) + r.1.bottomFires n

/-- `AlienManager.reset`: rebuild the formation and reset `moveTimer`,
`currentDirection`, `moveInterval` and the bottom latch. -/
def AlienManager.reset (m : AlienManager) : AlienManager :=
  { m with
    aliens := createAlienFormation m.rows m.columns
    moveTimer := 0
    currentDirection := .right
    moveInterval := 1
    hasReachedBottom := false }

/-- The `Ball` fields the claims are about: position, velocity, radius and
the attached-to-paddle flag. -/
structure Ball where
  position : Vec3 ℚ
  velocity : Vec3 ℚ
  radius : ℚ
  isAttachedToPaddle : Bool
deriving DecidableEq, Repr

/-- `Ball.reset(position)`: snap the position, re-attach to the paddle and
zero the velocity. -/
def Ball.reset (p : Vec3 ℚ) (b : Ball) : Ball :=
  { b with position := p, isAttachedToPaddle := true, velocity := ⟨0, 0, 0⟩ }

/-- Ball-vs-alien collision test of `AlienManager.checkCollisions`:
`sqrt((bx-ax)^2 + (by-ay)^2) < ballRadius + alienHalfWidth` (z ignored),
written sqrt-free as the equivalent squared comparison (equivalent because
`ballRadius + alienHalfWidth ≥ 0` for every constructed ball and alien). -/
def alienCollides (ball : Ball) (a : Alien) : Bool :=
  (ball.position.x - a.x) ^ 2 + (ball.position.y - a.y) ^ 2
    < (ball.radius + a.halfWidth) ^ 2

/-- Velocity update of a ball-vs-alien hit: reflect about the normalized
separation `(dx, dy, 0)` and boost by `1.05`.  With `n = d/|d|` and
`n.z = 0`, the source's `v - 2 (v·n) n` equals
`v - (2 (v.x*dx + v.y*dy) / (dx^2 + dy^2)) • (dx, dy, 0)`, which is the
sqrt-free form used here; `THREE.Vector3.normalize` maps the zero vector to
itself, giving an unreflected (only boosted) velocity when `d = 0`. -/
def reflectBoost (v : Vec3 ℚ) (dx dy : ℚ) : Vec3 ℚ :=
  let nsq := dx ^ 2 + dy ^ 2
  let v1 : Vec3 ℚ :=
    if nsq = 0 then v
    else
      ⟨v.x - 2 * ((v.x * dx + v.y * dy) / nsq) * dx,
       v.y - 2 * ((v.x * dx + v.y * dy) / nsq) * dy,
       v.z⟩
  ⟨v1.x * (21 / 20), v1.y * (21 / 20), v1.z * (21 / 20)⟩

/-- Loop body of `AlienManager.checkCollisions`: walk the alien array in
order; on each alive, colliding alien reflect+boost the ball velocity,
destroy the alien, add its points, and recompute `moveInterval` from the
alive count of the whole (partially updated) array, exactly as the nested
`increaseSpeed()` call does. -/
def ccAux (speedInc : ℚ) (total : ℕ) (ballPos : Vec3 ℚ) (ballRadius : ℚ) :
    List Alien → List Alien → Vec3 ℚ → ℕ → ℚ → List Alien × Vec3 ℚ × ℕ × ℚ
  | pre, [], vel, pts, mi => (pre, vel, pts, mi)
  | pre, a :: rest, vel, pts, mi =>
    if !a.isDestroyed ∧ alienCollides ⟨ballPos, vel, ballRadius, false⟩ a then
      let vel' := reflectBoost vel (ballPos.x - a.x) (ballPos.y - a.y)
      let a' := { a with isDestroyed := true }
      let pts' := pts + a.points
      let alive := ((pre ++ a' :: rest).filter (fun b => !b.isDestroyed)).length
      let destroyed : ℤ := (total : ℤ) - (alive : ℤ)
      let mi' := max (1 - (destroyed : ℚ) * speedInc) (1 / 5)
      ccAux speedInc total ballPos ballRadius (pre ++ [a']) rest vel' pts' mi'
    else ccAux speedInc total ballPos ballRadius (pre ++ [a]) rest vel pts mi

/-- `AlienManager.checkCollisions(ball)`: returns the updated manager, the
updated ball and the points scored. -/
def AlienManager.checkCollisions (m : AlienManager) (ball : Ball) :
    AlienManager × Ball × ℕ :=
  let r := ccAux m.speedIncreasePerAlien (m.rows * m.columns) ball.position ball.radius
    [] m.aliens ball.velocity 0 m.moveInterval
  ({ m with aliens := r.1, moveInterval := r.2.2.2 },
   { ball with velocity := r.2.1 },
   r.2.2.1)

/-- Axis-aligned world box of the physics update
(`PlayState.worldBounds` / `SimplePhysics.worldBounds`). -/
structure WorldBounds where
  minX : ℚ
  maxX : ℚ
  minY : ℚ
  maxY : ℚ
  minZ : ℚ
  maxZ : ℚ
deriving DecidableEq, Repr

/-- One axis block of the ball world-bounds pass: the `if / else if` that
snaps the exceeded coordinate to the bound offset by the radius and negates
that velocity component, returning the new (coordinate, velocity) pair. -/
def boundAxis (lo hi r p v : ℚ) : ℚ × ℚ :=
  if p - r < lo then (lo + r, -v)
  else if p + r > hi then (hi - r, -v)
  else (p, v)

/-- The ball world-bounds pass of `PlayState.updatePhysics` /
`SimplePhysics.update`: one `boundAxis` block per axis.  The source runs
the three blocks sequentially on the mutable body, but each block reads and
writes only its own axis, so the pass is their product. -/
def applyBounds (w : WorldBounds) (b : Ball) : Ball :=
  let r := b.radius
  let bx := boundAxis w.minX w.maxX r b.position.x b.velocity.x
  let by' := boundAxis w.minY w.maxY r b.position.y b.velocity.y
  let bz := boundAxis w.minZ w.maxZ r b.position.z b.velocity.z
  { b with position := ⟨bx.1, by'.1, bz.1⟩, velocity := ⟨bx.2, by'.2, bz.2⟩ }

/-- Velocity integration step of the physics update:
`position += velocity * deltaTime` on each axis. -/
def integrate (dt : ℚ) (b : Ball) : Ball :=
  { b with position :=
      ⟨b.position.x + b.velocity.x * dt,
       b.position.y + b.velocity.y * dt,
       b.position.z + b.velocity.z * dt⟩ }

/-- One physics tick for a world holding a single ball and no other
bodies: integrate, (vacuously) check pairwise collisions, then run the
world-bounds pass. -/
def tickFreeBall (w : WorldBounds) (dt : ℚ) (b : Ball) : Ball :=
  applyBounds w (integrate dt b)

/-- Session states, from the `GameState` enum in `playState.ts`. -/
inductive SessionState where
  | ready
  | playing
  | gameOver
  | levelComplete
  | paused
deriving DecidableEq, Repr

/-- The `PlayState` fields driving the `ballLost` transition: the state
machine state, lives, the pending ball-lost timeout (the debounce latch),
the ball and the bottom boundary. -/
structure Session where
  state : SessionState
  lives : ℤ
  ballLostTimeoutPending : Bool
  ball : Ball
  bottomBoundary : ℚ
deriving DecidableEq, Repr

/-- `PlayState.ballLost`: ignored while a timeout is pending; otherwise
decrement lives, go to game over when lives run out (no timer), else reset
the ball to `(0, bottomBoundary + 2, 0)`, enter `READY` and start the
2000 ms timer.  The second component is the delay of the started timer. -/
def Session.ballLost (s : Session) : Session × Option ℕ :=
  if s.ballLostTimeoutPending then (s, none)
  else
    let lives' := s.lives - 1
    if lives' ≤ 0 then
      ({ s with lives := lives', state := .gameOver }, none)
    else
      ({ s with
          lives := lives'
          ball := s.ball.reset ⟨0, s.bottomBoundary + 2, 0⟩
          state := .ready
          ballLostTimeoutPending := true }, some 2000)

/-- The body of the `setTimeout` callback in `ballLost`: return to
`PLAYING` and clear the pending-timeout latch. -/
def Session.ballLostTimerFire (s : Session) : Session :=
  { s with state := .playing, ballLostTimeoutPending := false }

/-- Speed (vector length) of a velocity, from `enforceMaxSpeed`:
`sqrt(x*x + y*y + z*z)`. -/
noncomputable def speedOf (v : Vec3 ℝ) : ℝ :=
  Real.sqrt (v.x * v.x + v.y * v.y + v.z * v.z)

/-- `Ball.maxSpeed = 20`. -/
def maxSpeed : ℝ := 20

/-- `Ball.enforceMaxSpeed`: when the speed exceeds `maxSpeed`, scale every
velocity component by `maxSpeed / speed`. -/
noncomputable def enforceMaxSpeed (v : Vec3 ℝ) : Vec3 ℝ :=
  let speed := speedOf v
  if speed > maxSpeed then
    let scale := maxSpeed / speed
    ⟨v.x * scale, v.y * scale, v.z * scale⟩
  else v

/-- C6: in a fresh 5×9 formation the first row (9 aliens) is small worth
30, the next two rows (18) medium worth 20, the remaining rows (18) large
worth 10; total points 9*30 + 18*20 + 18*10 = 810; at level 1 the
`moveInterval` formula reaches the 0.2 floor at destroyedCount = 32 (and
is still above it at 31), before the 45th and last alien is destroyed. -/
theorem c6_formation_points_and_floor :
    (createAlienFormation 5 9).length = 45 ∧
    (createAlienFormation 5 9).map Alien.type =
      List.replicate 9 AlienType.small ++ List.replicate 18 AlienType.medium ++
        List.replicate 18 AlienType.large ∧
    (createAlienFormation 5 9).map Alien.points =
      List.replicate 9 30 ++ List.replicate 18 20 ++ List.replicate 18 10 ∧
    ((createAlienFormation 5 9).map Alien.points).sum = 810 ∧
    (810 : ℕ) = 9 * 30 + 18 * 20 + 18 * 10 ∧
    moveIntervalFor (speedIncreaseAt 1) 32 = 1 / 5 ∧
    1 / 5 < moveIntervalFor (speedIncreaseAt 1) 31 ∧
    32 < 45 := by
  refine ⟨by decide, by decide, by decide, by decide, by decide, ?_, ?_, by decide⟩
  · unfold moveIntervalFor speedIncreaseAt
    norm_num
  · unfold moveIntervalFor speedIncreaseAt
    norm_num

/-- C8: `setDifficulty(level)` updates exactly `horizontalSpeed`,
`moveDownAmount` and `speedIncreasePerAlien`; `moveInterval`, `moveTimer`,
the swarm direction, the bottom-reached latch and the alien list (hence
every alien's position and alive flag) are unchanged. -/
theorem c8_setDifficulty_frame (m : AlienManager) (level : ℕ) :
    (m.setDifficulty level).moveInterval = m.moveInterval ∧
    (m.setDifficulty level).moveTimer = m.moveTimer ∧
    (m.setDifficulty level).currentDirection = m.currentDirection ∧
    (m.setDifficulty level).hasReachedBottom = m.hasReachedBottom ∧
    (m.setDifficulty level).aliens = m.aliens ∧
    (m.setDifficulty level).worldMin = m.worldMin ∧
    (m.setDifficulty level).worldMax = m.worldMax ∧
    (m.setDifficulty level).bottomBoundary = m.bottomBoundary ∧
    (m.setDifficulty level).rows = m.rows ∧
    (m.setDifficulty level).columns = m.columns ∧
    (m.setDifficulty level).horizontalSpeed = 3 / 2 + ((level : ℚ) - 1) * (3 / 10) ∧
    (m.setDifficulty level).moveDownAmount = 1 / 2 + ((level : ℚ) - 1) * (1 / 10) ∧
    (m.setDifficulty level).speedIncreasePerAlien = speedIncreaseAt level := by
  exact ⟨rfl, rfl, rfl, rfl, rfl, rfl, rfl, rfl, rfl, rfl, rfl, rfl, rfl⟩

/-- C3: `increaseSpeed` recomputes `moveInterval` as
`max(1 - destroyedCount * speedIncreasePerAlien, 0.2)`, and for a fixed
level the formula is non-increasing in the destroyed count and never drops
below the 0.2 floor. -/
theorem c3_speedup_monotone (m : AlienManager) (level : ℕ) (d1 d2 : ℤ)
    (hlev : 1 ≤ level) (hd : d1 ≤ d2) :
    m.increaseSpeed.moveInterval = moveIntervalFor m.speedIncreasePerAlien m.destroyedCount ∧
    moveIntervalFor (speedIncreaseAt level) d2 ≤ moveIntervalFor (speedIncreaseAt level) d1 ∧
    (1 / 5 : ℚ) ≤ moveIntervalFor (speedIncreaseAt level) d2 := by
  refine ⟨rfl, ?_, le_max_right _ _⟩
  have hinc : 0 ≤ speedIncreaseAt level := by
    have : (1 : ℚ) ≤ (level : ℚ) := by exact_mod_cast hlev
    unfold speedIncreaseAt
    nlinarith
  have hcast : (d1 : ℚ) ≤ (d2 : ℚ) := by exact_mod_cast hd
  have : 1 - (d2 : ℚ) * speedIncreaseAt level ≤ 1 - (d1 : ℚ) * speedIncreaseAt level := by
    nlinarith
  exact max_le_max this le_rfl

/-- Witness for C3 at level 1, destroyed counts 3 ≤ 5, on a concrete
manager. -/
theorem c3_witness :
    (AlienManager.increaseSpeed
        ⟨[], .right, 0, 1, 3 / 2, 1 / 2, 1 / 40, -9, 9, 1, false, 5, 9⟩).moveInterval =
      moveIntervalFor (1 / 40)
        (AlienManager.destroyedCount
          ⟨[], .right, 0, 1, 3 / 2, 1 / 2, 1 / 40, -9, 9, 1, false, 5, 9⟩) ∧
    moveIntervalFor (speedIncreaseAt 1) 5 ≤ moveIntervalFor (speedIncreaseAt 1) 3 ∧
    (1 / 5 : ℚ) ≤ moveIntervalFor (speedIncreaseAt 1) 5 := by
  have h := c3_speedup_monotone
    ⟨[], .right, 0, 1, 3 / 2, 1 / 2, 1 / 40, -9, 9, 1, false, 5, 9⟩ 1 3 5 le_rfl (by decide)
  exact ⟨h.1, h.2.1, h.2.2⟩

/-- With every alien destroyed, the edge-alien scan of `moveSwarm` finds
nothing. -/
lemma findEdgeAlien_all_destroyed (dir : SwarmDirection) (aliens : List Alien)
    (h : ∀ a ∈ aliens, a.isDestroyed = true) :
    findEdgeAlien dir aliens = none := by
  induction aliens with
  | nil => rfl
  | cons a tl ih =>
    have ha : a.isDestroyed = true := h a (by simp)
    have htl : ∀ b ∈ tl, b.isDestroyed = true := fun b hb => h b (by simp [hb])
    unfold findEdgeAlien at ih ⊢
    simp only [List.foldl_cons, ha, if_true]
    exact ih htl

/-- C9: a swarm step with every alien destroyed is a complete no-op: the
edge scan finds no alien, the direction is not flipped, no descent is
marked, and every (destroyed) alien is left untouched. -/
theorem c9_moveSwarm_noop (m : AlienManager)
    (h : ∀ a ∈ m.aliens, a.isDestroyed = true) :
    m.moveSwarm = m := by
  unfold AlienManager.moveSwarm
  rw [findEdgeAlien_all_destroyed m.currentDirection m.aliens h]
  have hmap : (m.aliens.map fun a =>
      if a.isDestroyed then a
      else
        let movement : ℚ := match m.currentDirection with
          | .right => m.horizontalSpeed * m.moveInterval
          | .left => -(m.horizontalSpeed * m.moveInterval)
        let a' := { a with x := a.x + movement }
        if false = true then a'.moveDown m.moveDownAmount else a') = m.aliens := by
    rw [show m.aliens = m.aliens.map id by simp]
    rw [List.map_map]
    apply List.map_congr_left
    intro a ha
    simp [h a (by simpa using ha)]
  simp only [hmap]

/-- Witness for C9: a manager holding one destroyed alien is unchanged by
`moveSwarm`. -/
theorem c9_witness :
    (AlienManager.aliens
        ⟨[⟨8, 15, 1 / 2, .small, 30, true⟩], .right, 0, 1, 3 / 2, 1 / 2, 1 / 40,
          -9, 9, 1, false, 5, 9⟩).all Alien.isDestroyed = true ∧
    AlienManager.moveSwarm
        ⟨[⟨8, 15, 1 / 2, .small, 30, true⟩], .right, 0, 1, 3 / 2, 1 / 2, 1 / 40,
          -9, 9, 1, false, 5, 9⟩ =
      ⟨[⟨8, 15, 1 / 2, .small, 30, true⟩], .right, 0, 1, 3 / 2, 1 / 2, 1 / 40,
        -9, 9, 1, false, 5, 9⟩ := by
  refine ⟨by decide, c9_moveSwarm_noop _ ?_⟩
  intro a ha
  simp only [List.mem_singleton] at ha
  subst ha
  rfl

/-- The C1 scenario: rightmost (only) alive alien at x = 8, half-width
0.5, world bound max 9, `horizontalSpeed = 1.5`, `moveInterval = 1.0`,
moving right. -/
def c1State : AlienManager :=
  ⟨[⟨8, 15, 1 / 2, .small, 30, false⟩], .right, 0, 1, 3 / 2, 1 / 2, 1 / 40,
    -9, 9, 1, false, 5, 9⟩

/-- C1 counterexample: on the claim's own scenario the step does flip the
direction to left, but it also translates the alien horizontally (to
x = 8 - 1.5 = 6.5) in the new direction, contradicting the claim that no
horizontal translation is applied on a flip step. -/
theorem c1_counterexample :
    c1State.moveSwarm.currentDirection = SwarmDirection.left ∧
    c1State.moveSwarm.aliens.map Alien.x = [13 / 2] ∧
    ¬ c1State.moveSwarm.aliens.map Alien.x = [8] ∧
    c1State.moveSwarm.aliens.map Alien.y = [29 / 2] := by
  norm_num [c1State, AlienManager.moveSwarm, findEdgeAlien, Alien.moveDown]

/-- C1 (amended), both flip branches: on every flip step — moving right
with the rightmost alive alien about to cross the max bound, or moving
left with the leftmost alive alien about to cross the min bound — the
direction reverses and every alive alien both descends by `moveDownAmount`
and translates horizontally by `horizontalSpeed * moveInterval` in the new
(flipped) direction; destroyed aliens are untouched. -/
theorem c1_flip_step (m : AlienManager) (e : Alien) :
    (m.currentDirection = .right →
      findEdgeAlien .right m.aliens = some e →
      e.x + e.halfWidth + m.horizontalSpeed * m.moveInterval > m.worldMax →
      m.moveSwarm.currentDirection = .left ∧
      m.moveSwarm.aliens = m.aliens.map (fun a =>
        if a.isDestroyed then a
        else { a with x := a.x - m.horizontalSpeed * m.moveInterval,
                      y := a.y - m.moveDownAmount })) ∧
    (m.currentDirection = .left →
      findEdgeAlien .left m.aliens = some e →
      e.x - e.halfWidth - m.horizontalSpeed * m.moveInterval < m.worldMin →
      m.moveSwarm.currentDirection = .right ∧
      m.moveSwarm.aliens = m.aliens.map (fun a =>
        if a.isDestroyed then a
        else { a with x := a.x + m.horizontalSpeed * m.moveInterval,
                      y := a.y - m.moveDownAmount })) := by
  constructor
  · intro hdir hedge hcross
    unfold AlienManager.moveSwarm
    rw [hdir, hedge]
    simp only [if_pos hcross]
    constructor
    · trivial
    · apply List.map_congr_left
      intro a _
      by_cases hd : a.isDestroyed
      · simp [hd]
      · simp [hd, Alien.moveDown, sub_eq_add_neg]
  · intro hdir hedge hcross
    unfold AlienManager.moveSwarm
    rw [hdir, hedge]
    simp only [if_pos hcross]
    constructor
    · trivial
    · apply List.map_congr_left
      intro a _
      by_cases hd : a.isDestroyed
      · simp [hd]
      · simp [hd, Alien.moveDown]

/-- The mirror of `c1State`: the leftmost (only) alive alien at x = -8,
half-width 0.5, world bound min -9, `horizontalSpeed = 1.5`,
`moveInterval = 1.0`, moving left. -/
def c1StateLeft : AlienManager :=
  ⟨[⟨-8, 15, 1 / 2, .small, 30, false⟩], .left, 0, 1, 3 / 2, 1 / 2, 1 / 40,
    -9, 9, 1, false, 5, 9⟩

/-- Witness for C1 (amended) on both branches: the claim's right-moving
scenario flips to left with the alien ending at x = 6.5, y = 15 - 0.5, and
the mirrored left-moving scenario flips to right with the alien ending at
x = -6.5, y = 15 - 0.5. -/
theorem c1_witness :
    c1State.moveSwarm.currentDirection = SwarmDirection.left ∧
    c1State.moveSwarm.aliens = [⟨13 / 2, 29 / 2, 1 / 2, .small, 30, false⟩] ∧
    c1StateLeft.moveSwarm.currentDirection = SwarmDirection.right ∧
    c1StateLeft.moveSwarm.aliens = [⟨-13 / 2, 29 / 2, 1 / 2, .small, 30, false⟩] := by
  have hr := (c1_flip_step c1State ⟨8, 15, 1 / 2, .small, 30, false⟩).1
    rfl rfl (by norm_num [c1State])
  have hl := (c1_flip_step c1StateLeft ⟨-8, 15, 1 / 2, .small, 30, false⟩).2
    rfl rfl (by norm_num [c1StateLeft])
  refine ⟨hr.1, ?_, hl.1, ?_⟩
  · rw [hr.2]
    norm_num [c1State]
  · rw [hl.2]
    norm_num [c1StateLeft]

/-- Once the bottom latch is set, `checkBottomReached` returns immediately
without firing or changing anything. -/
lemma checkBottomReached_latched (m : AlienManager) (h : m.hasReachedBottom = true) :
    m.checkBottomReached = (m, false) := by
  unfold AlienManager.checkBottomReached
  rw [if_pos h]

/-- C7: the reach-bottom event is latched: (a) a firing check sets the
latch; (b) once the latch is set, any number of further checks fires zero
callbacks; (c) `reset()` clears the latch; (d) with the latch clear and
some alive alien at or below the bottom boundary, the check fires. -/
theorem c7_bottom_latch (m : AlienManager) (n : ℕ) :
    (m.checkBottomReached.2 = true → m.checkBottomReached.1.hasReachedBottom = true) ∧
    (m.hasReachedBottom = true → m.bottomFires n = 0) ∧
    m.reset.hasReachedBottom = false ∧
    (m.hasReachedBottom = false →
      m.aliens.any (fun a => !a.isDestroyed && a.bottomReached m.bottomBoundary) = true →
      m.checkBottomReached.2 = true) := by
  refine ⟨?_, ?_, rfl, ?_⟩
  · intro hf
    unfold AlienManager.checkBottomReached at hf ⊢
    split_ifs at hf ⊢ with h1 h2
    all_goals simp_all
  · intro hl
    induction n with
    | zero => rfl
    | succ k ih =>
      unfold AlienManager.bottomFires
      rw [checkBottomReached_latched m hl]
      simpa using ih
  · intro hl ha
    unfold AlienManager.checkBottomReached
    rw [if_neg (by simp [hl]), if_pos ha]

/-- Witness for C7: a latched one-alien manager fires nothing over three
checks; reset clears its latch; and an unlatched manager with an alive
alien at the bottom fires. -/
theorem c7_witness :
    AlienManager.bottomFires
        ⟨[⟨0, 0, 1 / 2, .large, 10, false⟩], .right, 0, 1, 3 / 2, 1 / 2, 1 / 40,
          -9, 9, 1, true, 5, 9⟩ 3 = 0 ∧
    (AlienManager.reset
        ⟨[⟨0, 0, 1 / 2, .large, 10, false⟩], .right, 0, 1, 3 / 2, 1 / 2, 1 / 40,
          -9, 9, 1, true, 5, 9⟩).hasReachedBottom = false ∧
    (AlienManager.checkBottomReached
        ⟨[⟨0, 0, 1 / 2, .large, 10, false⟩], .right, 0, 1, 3 / 2, 1 / 2, 1 / 40,
          -9, 9, 1, false, 5, 9⟩).2 = true := by
  refine ⟨(c7_bottom_latch _ 3).2.1 rfl, (c7_bottom_latch _ 3).2.2.1, ?_⟩
  exact (c7_bottom_latch _ 0).2.2.2 rfl (by norm_num [Alien.bottomReached])

/-- C4: the `ballLost` handler. (a) While the grace timer is pending any
trigger is ignored entirely — no life decrement, no second timer. (b) With
no timer pending and one life left, lives drop to 0, the session goes
directly to game over, and no grace timer is started. (c) With no timer
pending and more than one life, lives decrement by one, the ball is reset
to `(0, bottomBoundary + 2, 0)`, the state leaves playing for ready, a
2000 ms timer is started, and its firing returns the state to playing. -/
theorem c4_ballLost (s : Session) :
    (s.ballLostTimeoutPending = true → s.ballLost = (s, none)) ∧
    (s.ballLostTimeoutPending = false → s.lives = 1 →
      s.ballLost.1.state = .gameOver ∧ s.ballLost.1.lives = 0 ∧
      s.ballLost.2 = none ∧ s.ballLost.1.ballLostTimeoutPending = false) ∧
    (s.ballLostTimeoutPending = false → 1 < s.lives →
      s.ballLost.1.state = .ready ∧ s.ballLost.1.lives = s.lives - 1 ∧
      s.ballLost.1.ball = s.ball.reset ⟨0, s.bottomBoundary + 2, 0⟩ ∧
      s.ballLost.1.ballLostTimeoutPending = true ∧ s.ballLost.2 = some 2000 ∧
      s.ballLost.1.ballLostTimerFire.state = .playing ∧
      s.ballLost.1.ballLostTimerFire.ballLostTimeoutPending = false) := by
  refine ⟨?_, ?_, ?_⟩
  · intro hp
    unfold Session.ballLost
    rw [if_pos hp]
  · intro hp h1
    unfold Session.ballLost
    rw [if_neg (by simp [hp]), if_pos (by omega)]
    exact ⟨rfl, by simp [h1], rfl, by simp [hp]⟩
  · intro hp h1
    unfold Session.ballLost
    rw [if_neg (by simp [hp]), if_neg (by omega)]
    exact ⟨rfl, rfl, rfl, rfl, rfl, rfl, rfl⟩

/-- Witness for C4 on concrete sessions: a pending-timer session ignores
the trigger; a one-life session goes straight to game over with no timer;
a three-life session goes to ready with the 2000 ms timer started. -/
theorem c4_witness :
    Session.ballLost ⟨.playing, 3, true, ⟨⟨0, 5, 0⟩, ⟨1, 2, 0⟩, 2 / 5, false⟩, 1 / 2⟩ =
      (⟨.playing, 3, true, ⟨⟨0, 5, 0⟩, ⟨1, 2, 0⟩, 2 / 5, false⟩, 1 / 2⟩, none) ∧
    (Session.ballLost ⟨.playing, 1, false, ⟨⟨0, 5, 0⟩, ⟨1, 2, 0⟩, 2 / 5, false⟩, 1 / 2⟩).1.state =
      SessionState.gameOver ∧
    (Session.ballLost ⟨.playing, 1, false, ⟨⟨0, 5, 0⟩, ⟨1, 2, 0⟩, 2 / 5, false⟩, 1 / 2⟩).2 =
      none ∧
    (Session.ballLost ⟨.playing, 3, false, ⟨⟨0, 5, 0⟩, ⟨1, 2, 0⟩, 2 / 5, false⟩, 1 / 2⟩).1.state =
      SessionState.ready ∧
    (Session.ballLost ⟨.playing, 3, false, ⟨⟨0, 5, 0⟩, ⟨1, 2, 0⟩, 2 / 5, false⟩, 1 / 2⟩).1.lives =
      2 ∧
    (Session.ballLost ⟨.playing, 3, false, ⟨⟨0, 5, 0⟩, ⟨1, 2, 0⟩, 2 / 5, false⟩, 1 / 2⟩).2 =
      some 2000 := by
  refine ⟨(c4_ballLost _).1 rfl, ?_, ?_, ?_, ?_, ?_⟩
  · exact ((c4_ballLost _).2.1 rfl rfl).1
  · exact ((c4_ballLost _).2.1 rfl rfl).2.2.1
  · exact ((c4_ballLost _).2.2 rfl (by norm_num)).1
  · have h := ((c4_ballLost
      ⟨.playing, 3, false, ⟨⟨0, 5, 0⟩, ⟨1, 2, 0⟩, 2 / 5, false⟩, 1 / 2⟩).2.2 rfl (by norm_num)).2.1
    simpa using h
  · exact ((c4_ballLost _).2.2 rfl (by norm_num)).2.2.2.2.1

/-- Closed form of one axis block: the coordinate is snapped to
`lo + r` / `hi - r` when the corresponding bound is exceeded, and the
velocity component is negated exactly when either bound was exceeded. -/
lemma boundAxis_spec (lo hi r p v : ℚ) :
    boundAxis lo hi r p v =
      (if p - r < lo then lo + r else if p + r > hi then hi - r else p,
       if p - r < lo ∨ p + r > hi then -v else v) := by
  unfold boundAxis
  split_ifs <;> first | rfl | tauto

/-- C2: after the world-bounds pass the ball's position lies within the
world box on every axis (given a sane box, wider than the ball); each
exceeded coordinate is snapped to the bound offset by the radius, and the
velocity component of each exceeded axis has its sign flipped while the
others are unchanged. -/
theorem c2_bounds (w : WorldBounds) (b : Ball)
    (hr : 0 ≤ b.radius)
    (hx : w.minX + b.radius ≤ w.maxX)
    (hy : w.minY + b.radius ≤ w.maxY)
    (hz : w.minZ + b.radius ≤ w.maxZ) :
    (w.minX ≤ (applyBounds w b).position.x ∧ (applyBounds w b).position.x ≤ w.maxX ∧
     w.minY ≤ (applyBounds w b).position.y ∧ (applyBounds w b).position.y ≤ w.maxY ∧
     w.minZ ≤ (applyBounds w b).position.z ∧ (applyBounds w b).position.z ≤ w.maxZ) ∧
    ((applyBounds w b).position.x =
      if b.position.x - b.radius < w.minX then w.minX + b.radius
      else if b.position.x + b.radius > w.maxX then w.maxX - b.radius
      else b.position.x) ∧
    ((applyBounds w b).velocity.x =
      if b.position.x - b.radius < w.minX ∨ b.position.x + b.radius > w.maxX
      then -b.velocity.x else b.velocity.x) ∧
    ((applyBounds w b).position.y =
      if b.position.y - b.radius < w.minY then w.minY + b.radius
      else if b.position.y + b.radius > w.maxY then w.maxY - b.radius
      else b.position.y) ∧
    ((applyBounds w b).velocity.y =
      if b.position.y - b.radius < w.minY ∨ b.position.y + b.radius > w.maxY
      then -b.velocity.y else b.velocity.y) ∧
    ((applyBounds w b).position.z =
      if b.position.z - b.radius < w.minZ then w.minZ + b.radius
      else if b.position.z + b.radius > w.maxZ then w.maxZ - b.radius
      else b.position.z) ∧
    ((applyBounds w b).velocity.z =
      if b.position.z - b.radius < w.minZ ∨ b.position.z + b.radius > w.maxZ
      then -b.velocity.z else b.velocity.z) := by
  simp only [applyBounds, boundAxis_spec]
  refine ⟨⟨?_, ?_, ?_, ?_, ?_, ?_⟩, trivial, trivial, trivial, trivial, trivial, trivial⟩ <;>
    (split_ifs <;> linarith)

/-- Witness for C2 at the spec scenario: a ball at `(0, 0.3, 0)` with
velocity `(0, -5, 0)`, radius `0.4`, bounds `minY = 0`, ends one tick at
`dt = 0.1` clamped to `y = 0.4` with `velocity.y = +5`, and within
bounds. -/
theorem c2_witness :
    tickFreeBall ⟨-9, 9, 0, 30, -9, 9⟩ (1 / 10) ⟨⟨0, 3 / 10, 0⟩, ⟨0, -5, 0⟩, 2 / 5, false⟩ =
      ⟨⟨0, 2 / 5, 0⟩, ⟨0, 5, 0⟩, 2 / 5, false⟩ ∧
    (0 : ℚ) ≤
      (applyBounds ⟨-9, 9, 0, 30, -9, 9⟩
        ⟨⟨0, -1 / 5, 0⟩, ⟨0, -5, 0⟩, 2 / 5, false⟩).position.y ∧
    (applyBounds ⟨-9, 9, 0, 30, -9, 9⟩
        ⟨⟨0, -1 / 5, 0⟩, ⟨0, -5, 0⟩, 2 / 5, false⟩).position.y ≤ 30 ∧
    (applyBounds ⟨-9, 9, 0, 30, -9, 9⟩
        ⟨⟨0, -1 / 5, 0⟩, ⟨0, -5, 0⟩, 2 / 5, false⟩).position.y = 2 / 5 ∧
    (applyBounds ⟨-9, 9, 0, 30, -9, 9⟩
        ⟨⟨0, -1 / 5, 0⟩, ⟨0, -5, 0⟩, 2 / 5, false⟩).velocity.y = 5 := by
  have h := c2_bounds ⟨-9, 9, 0, 30, -9, 9⟩ ⟨⟨0, -1 / 5, 0⟩, ⟨0, -5, 0⟩, 2 / 5, false⟩
    (by norm_num) (by norm_num) (by norm_num) (by norm_num)
  refine ⟨?_, h.1.2.2.1, h.1.2.2.2.1, ?_, ?_⟩
  · norm_num [tickFreeBall, integrate, applyBounds, boundAxis]
  · rw [h.2.2.2.1]
    norm_num
  · rw [h.2.2.2.2.1]
    norm_num

/-- C5: a ball-vs-alien collision (xy separation closer than ball radius
plus alien half-width) reflects the ball's velocity about the normalized
separation vector with its z component zeroed — so the z velocity is
untouched by the reflection — then scales the whole velocity by the fixed
1.05 factor, with no dependence on the alien's type; the alien is destroyed
and its point value is the returned score. -/
theorem c5_alien_collision (m : AlienManager) (ball : Ball) (a : Alien)
    (hals : m.aliens = [a])
    (halive : a.isDestroyed = false)
    (hcol : alienCollides ball a = true)
    (hsep : (ball.position.x - a.x) ^ 2 + (ball.position.y - a.y) ^ 2 ≠ 0) :
    (m.checkCollisions ball).2.1.velocity =
      ⟨(ball.velocity.x -
          2 * ((ball.velocity.x * (ball.position.x - a.x) +
              ball.velocity.y * (ball.position.y - a.y)) /
            ((ball.position.x - a.x) ^ 2 + (ball.position.y - a.y) ^ 2)) *
          (ball.position.x - a.x)) * (21 / 20),
       (ball.velocity.y -
          2 * ((ball.velocity.x * (ball.position.x - a.x) +
              ball.velocity.y * (ball.position.y - a.y)) /
            ((ball.position.x - a.x) ^ 2 + (ball.position.y - a.y) ^ 2)) *
          (ball.position.y - a.y)) * (21 / 20),
       ball.velocity.z * (21 / 20)⟩ ∧
    (m.checkCollisions ball).2.1.velocity.z = ball.velocity.z * (21 / 20) ∧
    (m.checkCollisions ball).1.aliens = [{ a with isDestroyed := true }] ∧
    (m.checkCollisions ball).2.2 = a.points := by
  have hcol' : alienCollides ⟨ball.position, ball.velocity, ball.radius, false⟩ a = true := hcol
  simp only [AlienManager.checkCollisions, hals, ccAux, halive, Bool.not_false, true_and]
  rw [if_pos hcol']
  simp only [ccAux, List.nil_append]
  refine ⟨?_, ?_, trivial, by simp⟩
  · simp only [reflectBoost]
    rw [if_neg hsep]
  · simp only [reflectBoost]
    rw [if_neg hsep]

/-- Witness for C5: a ball at the origin with velocity `(3, 0, 1)` hitting
a medium alien at `(1/2, 0)` bounces to `(-3 * 1.05, 0, 1 * 1.05)`; the
alien is destroyed and 20 points are scored. -/
theorem c5_witness :
    (AlienManager.checkCollisions
        ⟨[⟨1 / 2, 0, 1 / 2, .medium, 20, false⟩], .right, 0, 1, 3 / 2, 1 / 2, 1 / 40,
          -9, 9, 1, false, 5, 9⟩
        ⟨⟨0, 0, 0⟩, ⟨3, 0, 1⟩, 2 / 5, false⟩).2.1.velocity = ⟨-63 / 20, 0, 21 / 20⟩ ∧
    (AlienManager.checkCollisions
        ⟨[⟨1 / 2, 0, 1 / 2, .medium, 20, false⟩], .right, 0, 1, 3 / 2, 1 / 2, 1 / 40,
          -9, 9, 1, false, 5, 9⟩
        ⟨⟨0, 0, 0⟩, ⟨3, 0, 1⟩, 2 / 5, false⟩).1.aliens =
      [⟨1 / 2, 0, 1 / 2, .medium, 20, true⟩] ∧
    (AlienManager.checkCollisions
        ⟨[⟨1 / 2, 0, 1 / 2, .medium, 20, false⟩], .right, 0, 1, 3 / 2, 1 / 2, 1 / 40,
          -9, 9, 1, false, 5, 9⟩
        ⟨⟨0, 0, 0⟩, ⟨3, 0, 1⟩, 2 / 5, false⟩).2.2 = 20 := by
  have h := c5_alien_collision
    ⟨[⟨1 / 2, 0, 1 / 2, .medium, 20, false⟩], .right, 0, 1, 3 / 2, 1 / 2, 1 / 40,
      -9, 9, 1, false, 5, 9⟩
    ⟨⟨0, 0, 0⟩, ⟨3, 0, 1⟩, 2 / 5, false⟩
    ⟨1 / 2, 0, 1 / 2, .medium, 20, false⟩
    rfl rfl (by norm_num [alienCollides]) (by norm_num)
  refine ⟨?_, ?_, ?_⟩
  · rw [h.1]
    norm_num
  · exact h.2.2.1
  · exact h.2.2.2

/-- Speed of a uniformly scaled velocity. -/
lemma speedOf_scale (v : Vec3 ℝ) (s : ℝ) :
    speedOf ⟨v.x * s, v.y * s, v.z * s⟩ = |s| * speedOf v := by
  unfold speedOf
  rw [show v.x * s * (v.x * s) + v.y * s * (v.y * s) + v.z * s * (v.z * s)
      = s ^ 2 * (v.x * v.x + v.y * v.y + v.z * v.z) by ring]
  rw [Real.sqrt_mul (sq_nonneg s), Real.sqrt_sq_eq_abs]

/-- `enforceMaxSpeed` is the identity at or below the cap. -/
lemma enforceMaxSpeed_le (v : Vec3 ℝ) (h : speedOf v ≤ 20) :
    enforceMaxSpeed v = v := by
  unfold enforceMaxSpeed maxSpeed
  rw [if_neg (not_lt.mpr h)]

/-- Above the cap, `enforceMaxSpeed` scales each component by
`maxSpeed / speed`. -/
lemma enforceMaxSpeed_gt (v : Vec3 ℝ) (h : 20 < speedOf v) :
    enforceMaxSpeed v =
      ⟨v.x * (20 / speedOf v), v.y * (20 / speedOf v), v.z * (20 / speedOf v)⟩ := by
  unfold enforceMaxSpeed maxSpeed
  rw [if_pos h]

/-- Above the cap, the enforced speed is exactly 20. -/
lemma speedOf_enforceMaxSpeed_gt (v : Vec3 ℝ) (h : 20 < speedOf v) :
    speedOf (enforceMaxSpeed v) = 20 := by
  have h0 : speedOf v ≠ 0 := ne_of_gt (lt_trans (by norm_num) h)
  rw [enforceMaxSpeed_gt v h, speedOf_scale,
    abs_of_nonneg (by positivity : (0 : ℝ) ≤ 20 / speedOf v),
    div_mul_cancel₀ _ h0]

/-- C10: the speed cap leaves a velocity of magnitude at most 20
unchanged; above 20 it scales all three components by the same positive
factor `20 / |v|`, yielding a speed of exactly 20; and it is idempotent. -/
theorem c10_enforceMaxSpeed (v : Vec3 ℝ) :
    (speedOf v ≤ 20 → enforceMaxSpeed v = v) ∧
    (20 < speedOf v →
      enforceMaxSpeed v =
        ⟨v.x * (20 / speedOf v), v.y * (20 / speedOf v), v.z * (20 / speedOf v)⟩ ∧
      0 < 20 / speedOf v ∧
      speedOf (enforceMaxSpeed v) = 20) ∧
    enforceMaxSpeed (enforceMaxSpeed v) = enforceMaxSpeed v := by
  refine ⟨enforceMaxSpeed_le v, ?_, ?_⟩
  · intro h
    have hpos : 0 < 20 / speedOf v := by
      have : (0 : ℝ) < speedOf v := lt_trans (by norm_num) h
      positivity
    exact ⟨enforceMaxSpeed_gt v h, hpos, speedOf_enforceMaxSpeed_gt v h⟩
  · by_cases h : 20 < speedOf v
    · exact enforceMaxSpeed_le _ (le_of_eq (speedOf_enforceMaxSpeed_gt v h))
    · have he := enforceMaxSpeed_le v (not_lt.mp h)
      rw [he]
      exact he

/-- Witness for C10 at `v = (0, 30, 0)`: speed 30 exceeds the cap, the
result is `(0, 20, 0)` with speed exactly 20, and re-applying the cap
changes nothing. -/
theorem c10_witness :
    20 < speedOf ⟨0, 30, 0⟩ ∧
    enforceMaxSpeed ⟨0, 30, 0⟩ = ⟨0, 20, 0⟩ ∧
    speedOf (enforceMaxSpeed ⟨0, 30, 0⟩) = 20 ∧
    enforceMaxSpeed (enforceMaxSpeed ⟨0, 30, 0⟩) = enforceMaxSpeed ⟨0, 30, 0⟩ := by
  have hs : speedOf (⟨0, 30, 0⟩ : Vec3 ℝ) = 30 := by
    unfold speedOf
    rw [show ((0 : ℝ) * 0 + 30 * 30 + 0 * 0 : ℝ) = 30 ^ 2 by norm_num,
      Real.sqrt_sq (by norm_num : (0 : ℝ) ≤ 30)]
  have h20 : (20 : ℝ) < speedOf (⟨0, 30, 0⟩ : Vec3 ℝ) := by rw [hs]; norm_num
  obtain ⟨-, h2, h3⟩ := c10_enforceMaxSpeed ⟨0, 30, 0⟩
  obtain ⟨he, -, hsp⟩ := h2 h20
  refine ⟨h20, ?_, hsp, h3⟩
  rw [he, hs]
  norm_num
